import Mathlib

/-!
Verification development for the `facai` daily equity screening tool.

The Python source is embedded shallowly:
* Python floats become rationals (`ℚ`); a possibly-NaN float becomes
  `Option ℚ`, with `none` playing the role of NaN (IEEE comparisons with
  NaN are false, which the helper `fle` reproduces).
* Fallible code (Python exceptions) becomes `Except`/`Option` results.
* `pandas` rolling windows become explicit index arithmetic over lists.

Embedded modules: `app/strategy/scoring.py`, `app/features/indicators.py`,
`app/backtest/runner.py`, `app/engine/recommender.py`.
-/

namespace Facai

/-- A possibly-NaN float value: `none` is NaN. -/
abbrev F := Option ℚ

/-- Python `a <= b` on floats where either side may be NaN: any comparison
with NaN is false. -/
def fle (a b : F) : Bool :=
  match a, b with
  | some x, some y => decide (x ≤ y)
  | _, _ => false

/-- NaN-propagating addition. -/
def fadd (a b : F) : F :=
  match a, b with
  | some x, some y => some (x + y)
  | _, _ => none

/-- NaN-propagating subtraction. -/
def fsub (a b : F) : F :=
  match a, b with
  | some x, some y => some (x - y)
  | _, _ => none

/-- NaN-propagating multiplication. -/
def fmul (a b : F) : F :=
  match a, b with
  | some x, some y => some (x * y)
  | _, _ => none

/-- Python float division: raises `ZeroDivisionError` when the denominator is
exactly `0.0` (even for NaN numerators); otherwise NaN-propagating. -/
def fdiv (a b : F) : Except Unit F :=
  match b with
  | none => Except.ok none
  | some y => if y = 0 then Except.error () else Except.ok (a.map (fun x => x / y))

/-- A feature row (`df.iloc[-1]` after `add_indicators`): every column label is
present, but any value may be NaN. Mirrors the fields read by
`passes_threshold` and `compute_score` in `app/strategy/scoring.py`. -/
structure FeatureRow where
  close : F
  ma20 : F
  ma60 : F
  mom5 : F
  mom20 : F
  rsi14 : F
  vol20_std : F
  ma20_slope5 : F
  vol_ratio_5_20 : F
  volume_zscore20 : F

/-- `ThresholdRule` dataclass from `app/strategy/scoring.py`. -/
structure ThresholdRule where
  min_rsi : ℚ
  max_rsi : ℚ
  require_ma_alignment : Bool
  min_mom20 : ℚ

/-- `threshold_from_mode` from `app/strategy/scoring.py`; `none` models the
`ValueError` raised on an unsupported mode. -/
def threshold_from_mode (mode : String) : Option ThresholdRule :=
  if mode = "normal" then
    some ⟨35, 75, true, 0⟩
  else if mode = "relaxed" then
    some ⟨30, 80, false, -0.01⟩
  else if mode = "force" then
    some ⟨0, 100, false, -1⟩
  else
    none

/-- Body of `passes_threshold` once the rule is resolved, guard by guard.
NaN-valued comparisons are false, so e.g. a NaN `close` does not trigger the
`close <= ma20` rejection. -/
def passes_threshold_rule (latest : FeatureRow) (rule : ThresholdRule) : Bool :=
  if latest.ma20.isNone || latest.ma60.isNone then false
  else if fle latest.close latest.ma20 then false
  else if rule.require_ma_alignment && fle latest.ma20 latest.ma60 then false
  else if fle latest.mom20 (some rule.min_mom20) then false
  else if !(fle (some rule.min_rsi) latest.rsi14 && fle latest.rsi14 (some rule.max_rsi)) then false
  else true

/-- `passes_threshold` from `app/strategy/scoring.py`; `none` models the
`ValueError` on an unsupported mode. -/
def passes_threshold (latest : FeatureRow) (mode : String) : Option Bool :=
  (threshold_from_mode mode).map (passes_threshold_rule latest)

/-- `_clip01` from `app/strategy/scoring.py` on a possibly-NaN input:
`np.clip` propagates NaN, and the `hi <= lo` guard fires before any
arithmetic. -/
def clip01 (v : F) (lo hi : ℚ) : F :=
  if hi ≤ lo then some 0
  else v.map (fun x => min (max ((x - lo) / (hi - lo)) 0) 1)

/-- `_clip01` applied to a real (non-NaN) value. -/
def clip01R (v lo hi : ℚ) : ℚ :=
  if hi ≤ lo then 0
  else min (max ((v - lo) / (hi - lo)) 0) 1

theorem clip01_some (v lo hi : ℚ) : clip01 (some v) lo hi = some (clip01R v lo hi) := by
  unfold clip01 clip01R
  split <;> rfl

theorem clip01R_nonneg (v lo hi : ℚ) : 0 ≤ clip01R v lo hi := by
  unfold clip01R
  split
  · exact le_refl 0
  · exact le_min (le_max_right _ 0) (by norm_num)

theorem clip01R_le_one (v lo hi : ℚ) : clip01R v lo hi ≤ 1 := by
  unfold clip01R
  split
  · norm_num
  · exact min_le_right _ 1

/-- The four weights read by `compute_score` (`strategy.weights`), as plain
rationals. -/
structure Weights where
  trend : ℚ
  momentum : ℚ
  stability : ℚ
  volume : ℚ

/-- The raw sum `sum(max(v, 0.0) for v in weights.values())`. -/
def weight_sum_raw (w : Weights) : ℚ :=
  max w.trend 0 + max w.momentum 0 + max w.stability 0 + max w.volume 0

/-- `sum(max(v, 0.0) for v in weights.values()) or 1.0`: Python `or` turns a
zero (falsy) sum into `1.0`. -/
def weight_sum (w : Weights) : ℚ :=
  if weight_sum_raw w = 0 then 1 else weight_sum_raw w

/-- `ma20 = float(latest.get("ma20", close))` followed by the
`if np.isnan(ma20): ma20 = close` substitution: a NaN `ma20` falls back to
`close` (which may itself be NaN). -/
def effMa20 (latest : FeatureRow) : F :=
  match latest.ma20 with
  | some v => some v
  | none => latest.close

/-- `ma60` with its NaN substitution falling back to the effective `ma20`. -/
def effMa60 (latest : FeatureRow) : F :=
  match latest.ma60 with
  | some v => some v
  | none => effMa20 latest

/-- The `momentum` sub-score of `compute_score`; its inputs get concrete
NaN-substitution defaults, so the result is a real number. -/
def momentum_score (latest : FeatureRow) : ℚ :=
  (clip01R (latest.mom5.getD 0) (-0.08) 0.12 * 0.5
    + clip01R (latest.mom20.getD 0) (-0.15) 0.25 * 0.5) * 100

/-- The `stability` sub-score of `compute_score`. -/
def stability_score (latest : FeatureRow) : ℚ :=
  (1 - clip01R (latest.vol20_std.getD 0.03) 0.01 0.08) * 100

/-- The `volume` sub-score of `compute_score`. -/
def volume_score (latest : FeatureRow) : ℚ :=
  (clip01R (latest.vol_ratio_5_20.getD 1) 0.8 2 * 0.6
    + clip01R (latest.volume_zscore20.getD 0) (-0.5) 2.5 * 0.4) * 100

/-- The `trend` sub-score, given the two already-computed quotients
`r1 = close/ma20` and `r2 = ma20/ma60` (which may be NaN). -/
def trend_score (latest : FeatureRow) (r1 r2 : F) : F :=
  fmul
    (fadd
      (fadd (fmul (clip01 (fsub r1 (some 1)) (-0.03) 0.08) (some 0.4))
            (fmul (clip01 (fsub r2 (some 1)) (-0.03) 0.08) (some 0.4)))
      (some (clip01R (latest.ma20_slope5.getD 0) (-0.02) 0.04 * 0.2)))
    (some 100)

/-- The value returned by `compute_score`: the total plus the
`score_breakdown` entries. Only `trend` (and hence `total`) can carry NaN;
the other three sub-scores have concrete NaN-substitution defaults. -/
structure ScoreResult where
  total : F
  trend : F
  momentum : ℚ
  stability : ℚ
  volume : ℚ

/-- `compute_score` from `app/strategy/scoring.py`. The two row-dependent
divisions `close/ma20` and `ma20/ma60` are Python float divisions and raise
`ZeroDivisionError` (modelled as `Except.error ()`) when the denominator is
exactly zero; they are evaluated in source order inside the `trend`
expression, before the other sub-scores. -/
def compute_score (latest : FeatureRow) (w : Weights) : Except Unit ScoreResult :=
  (fdiv latest.close (effMa20 latest)).bind (fun r1 =>
    (fdiv (effMa20 latest) (effMa60 latest)).bind (fun r2 =>
      (fdiv
          (fadd
            (fadd (fadd (fmul (trend_score latest r1 r2) (some (max w.trend 0)))
                        (some (momentum_score latest * max w.momentum 0)))
                  (some (stability_score latest * max w.stability 0)))
            (some (volume_score latest * max w.volume 0)))
          (some (weight_sum w))).bind (fun total =>
        Except.ok ⟨total, trend_score latest r1 r2, momentum_score latest,
          stability_score latest, volume_score latest⟩)))

/-! ### Indicators (`app/features/indicators.py`) -/

/-- `series.diff()` at index `i`: NaN at index 0 (and out of range). -/
def diffAt (closes : List ℚ) (i : ℕ) : F :=
  if i = 0 then none
  else closes[i]?.bind (fun a => (closes[i - 1]?).map (fun b => a - b))

/-- `np.where(diff > 0, diff, 0.0)`: a NaN difference compares false and
becomes `0.0`. -/
def gainAt (closes : List ℚ) (i : ℕ) : ℚ :=
  match diffAt closes i with
  | some d => if 0 < d then d else 0
  | none => 0

/-- `np.where(diff < 0, -diff, 0.0)`. -/
def lossAt (closes : List ℚ) (i : ℕ) : ℚ :=
  match diffAt closes i with
  | some d => if d < 0 then -d else 0
  | none => 0

/-- `rolling(window=w, min_periods=w).mean()` of the gain series at index
`i`: defined only once `w` observations exist. -/
def gain_avg (closes : List ℚ) (w i : ℕ) : F :=
  if w ≤ i + 1 ∧ i < closes.length then
    some ((((List.range w).map (fun j => gainAt closes (i - j))).sum) / (w : ℚ))
  else none

/-- Rolling mean of the loss series at index `i`. -/
def loss_avg (closes : List ℚ) (w i : ℕ) : F :=
  if w ≤ i + 1 ∧ i < closes.length then
    some ((((List.range w).map (fun j => lossAt closes (i - j))).sum) / (w : ℚ))
  else none

/-- `rs = gain_avg / loss_avg.replace(0, np.nan)` at index `i`: a zero loss
average is first replaced by NaN, so the quotient is NaN there (never
infinite). -/
def rsAt (closes : List ℚ) (w i : ℕ) : F :=
  match loss_avg closes w i with
  | none => none
  | some l => if l = 0 then none else (gain_avg closes w i).map (fun g => g / l)

/-- `rsi` from `app/features/indicators.py` at index `i`:
`100 - (100 / (1 + rs))`, NaN wherever `rs` is NaN. -/
def rsiAt (closes : List ℚ) (w i : ℕ) : F :=
  (rsAt closes w i).map (fun r => 100 - 100 / (1 + r))

/-! ### Backtest runner (`app/backtest/runner.py`) -/

/-- The `execution_cost` configuration read by `BacktestRunner.__init__`. -/
structure ExecutionCostCfg where
  commission_rate : ℚ
  stamp_duty_sell_rate : ℚ
  slippage_bps : ℚ
  min_commission_per_side : ℚ
  enabled : Bool

/-- `BacktestRunner._apply_round_trip_cost`. `none` is a missing (None) gross
return. The non-positive-gross-factor clamp fires before the fee/slippage
formula; the final division is rational (its denominator is nonzero for
every configuration with `slippage_bps > -10000` and fees above `-1`). -/
def apply_round_trip_cost (cfg : ExecutionCostCfg) (gross_ret : Option ℚ) : Option ℚ :=
  match gross_ret with
  | none => none
  | some g =>
    if !cfg.enabled then some g
    else
      let slip := cfg.slippage_bps / 10000
      let buy_slip_factor := 1 + slip
      let sell_slip_factor := 1 - slip
      let buy_fee_rate := cfg.commission_rate
      let sell_fee_rate := cfg.commission_rate + cfg.stamp_duty_sell_rate
      let buy_fee := max buy_fee_rate cfg.min_commission_per_side
      let sell_fee := max sell_fee_rate cfg.min_commission_per_side
      let gross_factor := 1 + g
      if gross_factor ≤ 0 then some (-1)
      else
        some (gross_factor * sell_slip_factor * (1 - sell_fee)
                / (buy_slip_factor * (1 + buy_fee)) - 1)

/-- `BacktestRunner._calc_forward_return`. Dates are numbered by `ℕ`;
`close_map` is the per-symbol close dictionary (`None` = absent key). -/
def calc_forward_return (close_map : ℕ → Option ℚ) (dt : ℕ) (trade_dates : List ℕ)
    (step : ℕ) : Option ℚ :=
  if dt ∈ trade_dates then
    if trade_dates.indexOf dt + step < trade_dates.length then
      match close_map dt, close_map (trade_dates.getD (trade_dates.indexOf dt + step) 0) with
      | some c1, some c2 => if c1 ≤ 0 then none else some (c2 / c1 - 1)
      | _, _ => none
    else none
  else none

/-- The day-accounting fields of the dict built by `BacktestRunner._summary`. -/
structure BacktestSummary where
  attempted_days : ℕ
  total_trades : ℕ
  skipped_days : ℤ

/-- The days iterated by `BacktestRunner.run`: `trade_dates[:-5]`. -/
def attempted_day_list (trade_dates : List ℕ) : List ℕ :=
  trade_dates.take (trade_dates.length - 5)

/-- The records accumulated by the `BacktestRunner.run` loop: one per
attempted day whose per-day body succeeded. `recommend d` models the guarded
`self.recommender.recommend(dt)` call together with the record construction
that always follows a success (data-source calls after a successful
recommendation are modelled as total; an exception there would abort the
whole run and produce no summary at all). A failed day is skipped and only
counted; a successful day appends exactly one record. -/
def backtest_records {α : Type} (trade_dates : List ℕ) (recommend : ℕ → Except Unit α) :
    List α :=
  (attempted_day_list trade_dates).filterMap (fun d => (recommend d).toOption)

/-- `BacktestRunner.run` followed by `_summary`, projected onto its
day-accounting fields (`attempted_days`, `total_trades`, `skipped_days`). -/
def backtest_run {α : Type} (trade_dates : List ℕ) (recommend : ℕ → Except Unit α) :
    Except Unit BacktestSummary :=
  if trade_dates.length < 8 then Except.error ()
  else
    Except.ok ⟨(attempted_day_list trade_dates).length,
      (backtest_records trade_dates recommend).length,
      max (((attempted_day_list trade_dates).length : ℤ)
        - ((backtest_records trade_dates recommend).length : ℤ)) 0⟩

/-! ### Recommender engine (`app/engine/recommender.py`) -/

/-- The mode loop of `Recommender.recommend`, abstracted over
`_rank_candidates` (`rank m` is the sorted candidate list mode `m` yields).
Returns the list of modes actually ranked, in order, together with the final
candidate list: the loop breaks at the first mode whose candidates are
non-empty. -/
def mode_fallback {α : Type} (rank : String → List α) : List String → List String × List α
  | [] => ([], [])
  | m :: rest =>
    if (rank m).isEmpty then
      (m :: (mode_fallback rank rest).1, (mode_fallback rank rest).2)
    else ([m], rank m)

/-- `Recommender.recommend` after the loop: raise the "no candidate" error
when every enabled mode yielded an empty list, otherwise return the winning
mode (the last one ranked) and its candidates. -/
def recommend_select {α : Type} (rank : String → List α) (modes : List String) :
    Except String (String × List α) :=
  if (mode_fallback rank modes).2.isEmpty then
    Except.error ("No candidate found in enabled modes: " ++ String.intercalate "," modes)
  else Except.ok ((mode_fallback rank modes).1.getLastD "", (mode_fallback rank modes).2)

/-- One iteration of the `_resolve_enabled_modes` loop: trim and lowercase
the entry, keep it when it is an allowed mode not already collected. -/
def modeStep (acc : List String) (m : String) : List String :=
  if (m.trim.toLower = "normal" || m.trim.toLower = "relaxed" || m.trim.toLower = "force")
      && !acc.contains m.trim.toLower
  then acc ++ [m.trim.toLower] else acc

/-- `Recommender._resolve_enabled_modes`. `none` models a configured value
that is not a list; entries are already stringified (`str(m)`), then trimmed
and lowercased before the allow-list and dedup checks. -/
def resolve_enabled_modes (cfg_modes : Option (List String)) : List String :=
  match cfg_modes with
  | none => ["normal", "relaxed", "force"]
  | some ms =>
    if (ms.foldl modeStep []).isEmpty then ["normal", "relaxed", "force"]
    else ms.foldl modeStep []

/-! ### Theorems -/

/-- C9: the clip-and-rescale primitive `_clip01(v, lo, hi)` is total — for any
bounds with `hi ≤ lo` it returns `0.0` instead of dividing by `hi - lo`, so no
division by zero or sign-inverted rescaling occurs, and on any real input its
result is defined and lies in `[0, 1]`. -/
theorem clip01_total_and_bounded (lo hi : ℚ) (x : F) (v : ℚ) :
    (hi ≤ lo → clip01 x lo hi = some 0)
    ∧ clip01 (some v) lo hi = some (clip01R v lo hi)
    ∧ 0 ≤ clip01R v lo hi ∧ clip01R v lo hi ≤ 1 :=
  ⟨fun h => by unfold clip01; simp [h],
   clip01_some v lo hi, clip01R_nonneg v lo hi, clip01R_le_one v lo hi⟩

/-- Witness for C9 at concrete inputs: inverted bounds give `0`, and a value
far above the band still lands in `[0, 1]`. -/
theorem clip01_total_and_bounded_witness :
    clip01 (some (7 : ℚ)) 3 2 = some 0 ∧ 0 ≤ clip01R 7 0 1 :=
  ⟨(clip01_total_and_bounded 3 2 (some 7) 7).1 (by norm_num),
   (clip01_total_and_bounded 0 1 (some 7) 7).2.2.1⟩

/-- C3: with cost modelling enabled, any gross return `g ≤ -1` (non-positive
price factor) is clamped to exactly `-1.0` and never reaches the fee/slippage
formula; with cost modelling disabled, the net return equals the gross return
for every input. -/
theorem apply_round_trip_cost_floor_and_bypass (cfg : ExecutionCostCfg) (g : ℚ) :
    (cfg.enabled = true → g ≤ -1 → apply_round_trip_cost cfg (some g) = some (-1))
    ∧ (cfg.enabled = false → apply_round_trip_cost cfg (some g) = some g) := by
  constructor
  · intro he hg
    have h0 : (1 : ℚ) + g ≤ 0 := by linarith
    simp [apply_round_trip_cost, he, h0]
  · intro he
    simp [apply_round_trip_cost, he]

/-- Witness for C3: a `-200%` gross return is clamped to `-1` under the
default cost configuration, and a disabled cost model passes `0.37` through. -/
theorem apply_round_trip_cost_floor_and_bypass_witness :
    apply_round_trip_cost ⟨0.0002, 0.0005, 5, 0, true⟩ (some (-2)) = some (-1)
    ∧ apply_round_trip_cost ⟨0.0002, 0.0005, 5, 0, false⟩ (some 0.37) = some 0.37 :=
  ⟨(apply_round_trip_cost_floor_and_bypass ⟨0.0002, 0.0005, 5, 0, true⟩ (-2)).1 rfl
      (by norm_num),
   (apply_round_trip_cost_floor_and_bypass ⟨0.0002, 0.0005, 5, 0, false⟩ 0.37).2 rfl⟩

/-- C8: `_apply_round_trip_cost(0.0)` with zero slippage, commissions, stamp
duty and minimum commission returns exactly `0.0`; with the default nonzero
cost parameters (`commission_rate = 0.0002`, `stamp_duty_sell_rate = 0.0005`,
`slippage_bps = 5.0`) a flat move nets a strictly negative return. -/
theorem apply_round_trip_cost_flat_move :
    apply_round_trip_cost ⟨0, 0, 0, 0, true⟩ (some 0) = some 0
    ∧ apply_round_trip_cost ⟨0.0002, 0.0005, 5, 0, true⟩ (some 0) = some (-12665 / 6671334)
    ∧ (-12665 / 6671334 : ℚ) < 0 := by
  refine ⟨?_, ?_, by norm_num⟩
  · unfold apply_round_trip_cost
    norm_num
  · unfold apply_round_trip_cost
    norm_num [max_def]

/-- A strictly ascending 15-bar close series: close at index `n` is `n`. -/
def rampCloses : List ℚ := (List.range 15).map (fun n : ℕ => (n : ℚ))

theorem rampCloses_getElem (i : ℕ) (h : i < 15) : rampCloses[i]? = some (i : ℚ) := by
  rw [rampCloses, List.getElem?_map, List.getElem?_range h]
  rfl

theorem rampCloses_lossAt (i : ℕ) (h1 : i ≠ 0) (h2 : i < 15) : lossAt rampCloses i = 0 := by
  unfold lossAt diffAt
  rw [if_neg h1, rampCloses_getElem i h2, rampCloses_getElem (i - 1) (by omega)]
  have hd : ((i : ℚ)) - ((i - 1 : ℕ) : ℚ) = 1 := by
    rw [Nat.cast_sub (by omega : 1 ≤ i)]
    ring
  simp [hd]

theorem rampCloses_loss_avg : loss_avg rampCloses 14 14 = some 0 := by
  have hlen : rampCloses.length = 15 := by
    rw [rampCloses, List.length_map, List.length_range]
  unfold loss_avg
  rw [if_pos ⟨by omega, by omega⟩]
  have h0 : ((List.range 14).map (fun j => lossAt rampCloses (14 - j))).sum = 0 := by
    apply List.sum_eq_zero
    intro x hx
    simp only [List.mem_map, List.mem_range] at hx
    obtain ⟨j, hj, rfl⟩ := hx
    exact rampCloses_lossAt (14 - j) (by omega) (by omega)
  rw [h0]
  norm_num

/-- C4 counterexample: on a strictly ascending 15-bar close series the 14-bar
rolling loss average at the last index is zero, yet the RSI there is NaN
(`none`), not `100`: the code replaces the zero loss average with NaN before
dividing. -/
theorem rsi_zero_loss_avg_is_nan_not_100 :
    loss_avg rampCloses 14 14 = some 0
    ∧ rsiAt rampCloses 14 14 = none
    ∧ rsiAt rampCloses 14 14 ≠ some 100 := by
  have hnan : rsiAt rampCloses 14 14 = none := by
    unfold rsiAt rsAt
    rw [rampCloses_loss_avg]
    simp
  exact ⟨rampCloses_loss_avg, hnan, by rw [hnan]; exact fun hc => Option.noConfusion hc⟩

/-- C4 amended: whenever the trailing rolling mean of losses is zero, the
resulting RSI value is NaN (undefined), because `loss_avg.replace(0, np.nan)`
turns the zero denominator into NaN before the division. -/
theorem rsi_zero_loss_avg_nan (closes : List ℚ) (w i : ℕ)
    (h : loss_avg closes w i = some 0) : rsiAt closes w i = none := by
  unfold rsiAt rsAt
  rw [h]
  simp

/-- Witness for the amended C4 on the ascending series. -/
theorem rsi_zero_loss_avg_nan_witness : rsiAt rampCloses 14 14 = none :=
  rsi_zero_loss_avg_nan rampCloses 14 14 rampCloses_loss_avg

/-- A feature row with defined `ma20`/`ma60` whose close sits below its
`ma20`. -/
def rowCloseBelowMa20 : FeatureRow :=
  ⟨some 1, some 2, some 1, some 0, some 0, some 50, some 0.02, some 0, some 1, some 0⟩

/-- C2 counterexample: `passes_threshold(row, "force")` is not universally
true for rows with defined `ma20`/`ma60` — the `close <= ma20` guard applies
in every mode, so this row is rejected. -/
theorem passes_threshold_force_not_universal :
    rowCloseBelowMa20.ma20.isSome = true
    ∧ rowCloseBelowMa20.ma60.isSome = true
    ∧ passes_threshold rowCloseBelowMa20 "force" = some false := by
  refine ⟨rfl, rfl, ?_⟩
  have hrule : threshold_from_mode "force" = some ⟨0, 100, false, -1⟩ := rfl
  unfold passes_threshold
  rw [hrule]
  show some (passes_threshold_rule rowCloseBelowMa20 ⟨0, 100, false, -1⟩) = some false
  unfold passes_threshold_rule rowCloseBelowMa20
  norm_num [fle]

/-- C2 amended: `passes_threshold(row, "force")` is true for every row with
defined `ma20`/`ma60`, provided additionally that `close` is defined and
exceeds `ma20` (a guard applied in every mode), `mom20` exceeds the force
floor `-1.0`, and `rsi14` is defined and lies in the band `[0, 100]`. -/
theorem passes_threshold_force_passes (row : FeatureRow) (a b c m r : ℚ)
    (hma20 : row.ma20 = some a) (hma60 : row.ma60 = some b)
    (hclose : row.close = some c) (hc : a < c)
    (hmom : row.mom20 = some m) (hm : -1 < m)
    (hrsi : row.rsi14 = some r) (hr0 : 0 ≤ r) (hr1 : r ≤ 100) :
    passes_threshold row "force" = some true := by
  have hrule : threshold_from_mode "force" = some ⟨0, 100, false, -1⟩ := rfl
  unfold passes_threshold
  rw [hrule]
  show some (passes_threshold_rule row ⟨0, 100, false, -1⟩) = some true
  unfold passes_threshold_rule
  simp [fle, hma20, hma60, hclose, hmom, hrsi, not_le.mpr hc, not_le.mpr hm, hr0, hr1]

/-- Witness for the amended C2 on a healthy concrete row. -/
theorem passes_threshold_force_passes_witness :
    passes_threshold
      ⟨some 11, some 10, some 9.5, some 0.03, some 0.05, some 60, some 0.02, some 0.01,
        some 1, some 0⟩ "force" = some true :=
  passes_threshold_force_passes
    ⟨some 11, some 10, some 9.5, some 0.03, some 0.05, some 60, some 0.02, some 0.01,
      some 1, some 0⟩
    10 9.5 11 0.05 60 rfl rfl rfl (by norm_num) rfl (by norm_num) rfl (by norm_num)
    (by norm_num)

/-- A close map where the base close is positive but the close one step
forward is negative: date 0 closes at 10, date 1 closes at -5. -/
def negForwardCloseMap : ℕ → Option ℚ := fun n =>
  if n = 0 then some 10 else if n = 1 then some (-5) else none

/-- C5 counterexample: `_calc_forward_return` checks only the base close for
positivity — with a non-positive close at the target offset it still returns
a value (`-5/10 - 1 = -3/2`) instead of `None`, contradicting "undefined when
either close is non-positive". -/
theorem calc_forward_return_ignores_target_close_sign :
    negForwardCloseMap 1 = some (-5)
    ∧ ((-5 : ℚ) ≤ 0)
    ∧ calc_forward_return negForwardCloseMap 0 [0, 1] 1 = some (-3 / 2) := by
  refine ⟨rfl, by norm_num, ?_⟩
  unfold calc_forward_return
  rw [if_pos (by simp), if_pos (by simp)]
  show (if (10 : ℚ) ≤ 0 then none else some ((-5) / 10 - 1)) = some (-3 / 2)
  rw [if_neg (by norm_num)]
  norm_num

/-- C5 amended: the forward return is `close[t+k]/close[t] - 1`, and it is
`None` exactly when the date is not in the trade-date sequence, the target
offset falls outside it, either close is missing, or the BASE close
`close[t]` is non-positive — the sign of the forward close is not checked. -/
theorem calc_forward_return_spec (close_map : ℕ → Option ℚ) (dt : ℕ)
    (trade_dates : List ℕ) (step : ℕ) :
    (calc_forward_return close_map dt trade_dates step = none ↔
      dt ∉ trade_dates
      ∨ trade_dates.length ≤ trade_dates.indexOf dt + step
      ∨ close_map dt = none
      ∨ close_map (trade_dates.getD (trade_dates.indexOf dt + step) 0) = none
      ∨ ∃ c1, close_map dt = some c1 ∧ c1 ≤ 0)
    ∧ (∀ c1 c2 : ℚ, dt ∈ trade_dates →
        trade_dates.indexOf dt + step < trade_dates.length →
        close_map dt = some c1 → 0 < c1 →
        close_map (trade_dates.getD (trade_dates.indexOf dt + step) 0) = some c2 →
        calc_forward_return close_map dt trade_dates step = some (c2 / c1 - 1)) := by
  constructor
  · unfold calc_forward_return
    by_cases hmem : dt ∈ trade_dates
    · rw [if_pos hmem]
      by_cases hlen : trade_dates.indexOf dt + step < trade_dates.length
      · rw [if_pos hlen]
        cases h1 : close_map dt with
        | none => simp [hmem, h1, Nat.not_le.mpr hlen]
        | some c1 =>
          cases h2 : close_map (trade_dates.getD (trade_dates.indexOf dt + step) 0) with
          | none => simp [hmem, h1, h2, Nat.not_le.mpr hlen]
          | some c2 =>
            by_cases hc : c1 ≤ 0
            · simp [hmem, h1, h2, Nat.not_le.mpr hlen, hc]
            · simp [hmem, h1, h2, Nat.not_le.mpr hlen, hc]
      · rw [if_neg hlen]
        simp [Nat.not_lt.mp hlen]
    · rw [if_neg hmem]
      simp [hmem]
  · intro c1 c2 hmem hlen h1 hc h2
    unfold calc_forward_return
    rw [if_pos hmem, if_pos hlen, h1, h2]
    show (if c1 ≤ 0 then none else some (c2 / c1 - 1)) = some (c2 / c1 - 1)
    rw [if_neg (not_le.mpr hc)]

/-- Witness for the amended C5: both closes present and positive over a
two-date sequence yield `11/10 - 1`. -/
theorem calc_forward_return_spec_witness :
    calc_forward_return (fun n => if n = 0 then some 10 else if n = 1 then some 11 else none)
      0 [0, 1] 1 = some (11 / 10 - 1) :=
  (calc_forward_return_spec
      (fun n => if n = 0 then some 10 else if n = 1 then some 11 else none) 0 [0, 1] 1).2
    10 11 (by simp) (by simp) rfl (by norm_num) rfl

/-- C7: the backtest raises when fewer than 8 trade dates are in range;
otherwise exactly `N - 5` days are attempted (the final 5 trade dates are
never attempted) and the produced summary satisfies
`attempted_days = total_trades + skipped_days`. -/
theorem backtest_run_day_count {α : Type} (trade_dates : List ℕ)
    (recommend : ℕ → Except Unit α) :
    (trade_dates.length < 8 → backtest_run trade_dates recommend = Except.error ())
    ∧ (8 ≤ trade_dates.length →
        ∃ s, backtest_run trade_dates recommend = Except.ok s
          ∧ s.attempted_days = trade_dates.length - 5
          ∧ (s.attempted_days : ℤ) = s.total_trades + s.skipped_days) := by
  constructor
  · intro h
    unfold backtest_run
    rw [if_pos h]
  · intro h
    have hdays : (attempted_day_list trade_dates).length = trade_dates.length - 5 := by
      unfold attempted_day_list
      rw [List.length_take]
      omega
    have hrec : (backtest_records trade_dates recommend).length
        ≤ (attempted_day_list trade_dates).length := by
      unfold backtest_records
      exact List.length_filterMap_le _ _
    refine ⟨⟨(attempted_day_list trade_dates).length,
      (backtest_records trade_dates recommend).length,
      max (((attempted_day_list trade_dates).length : ℤ)
        - ((backtest_records trade_dates recommend).length : ℤ)) 0⟩, ?_, hdays, ?_⟩
    · unfold backtest_run
      rw [if_neg (by omega)]
    · have h0 : (0 : ℤ) ≤ ((attempted_day_list trade_dates).length : ℤ)
          - ((backtest_records trade_dates recommend).length : ℤ) := by
        omega
      rw [max_eq_left h0]
      ring

/-- Witness for C7: a 10-date range attempts 5 days, and a 3-date range
raises. -/
theorem backtest_run_day_count_witness :
    backtest_run [0, 1, 2] (fun _ => Except.ok 0) = Except.error ()
    ∧ (backtest_run (List.range 10) (fun _ => Except.ok 0)).isOk = true := by
  constructor
  · exact (backtest_run_day_count [0, 1, 2] (fun _ => Except.ok 0)).1 (by simp)
  · obtain ⟨s, hs, -, -⟩ :=
      (backtest_run_day_count (List.range 10) (fun _ => Except.ok 0)).2 (by simp)
    rw [hs]
    rfl

/-- Step invariant for `_resolve_enabled_modes`: each loop iteration keeps
the accumulator duplicate-free and inside the allow-list. -/
theorem modeStep_preserves (acc : List String) (m : String)
    (h1 : acc.Nodup) (h2 : ∀ x ∈ acc, x = "normal" ∨ x = "relaxed" ∨ x = "force") :
    (modeStep acc m).Nodup
    ∧ ∀ x ∈ modeStep acc m, x = "normal" ∨ x = "relaxed" ∨ x = "force" := by
  unfold modeStep
  split
  · rename_i hcond
    rw [Bool.and_eq_true] at hcond
    obtain ⟨hallow, hnotmem⟩ := hcond
    rw [Bool.not_eq_true'] at hnotmem
    have hmem : m.trim.toLower ∉ acc := by
      intro hx
      rw [show acc.contains m.trim.toLower = decide (m.trim.toLower ∈ acc) by
            simp [List.contains_eq_any_beq],
          decide_eq_false_iff_not] at hnotmem
      exact hnotmem hx
    constructor
    · rw [List.nodup_append]
      exact ⟨h1, List.nodup_singleton _, by
        intro x hx hx2
        rw [List.mem_singleton] at hx2
        subst hx2
        exact hmem hx⟩
    · intro x hx
      rcases List.mem_append.mp hx with hx | hx
      · exact h2 x hx
      · rw [List.mem_singleton] at hx
        subst hx
        simp only [Bool.or_eq_true, decide_eq_true_eq] at hallow
        tauto
  · exact ⟨h1, h2⟩

/-- Fold invariant for the `_resolve_enabled_modes` loop. -/
theorem modeStep_fold_invariant (ms : List String) :
    ∀ acc : List String, acc.Nodup →
      (∀ x ∈ acc, x = "normal" ∨ x = "relaxed" ∨ x = "force") →
      (ms.foldl modeStep acc).Nodup
      ∧ ∀ x ∈ ms.foldl modeStep acc, x = "normal" ∨ x = "relaxed" ∨ x = "force" := by
  induction ms with
  | nil => intro acc h1 h2; exact ⟨h1, h2⟩
  | cons m rest ih =>
    intro acc h1 h2
    rw [List.foldl_cons]
    obtain ⟨h1', h2'⟩ := modeStep_preserves acc m h1 h2
    exact ih (modeStep acc m) h1' h2'

/-- C10: `_resolve_enabled_modes` never returns an empty list — a non-list
or unrecognized configuration falls back to the full default order, so
indexing the first enabled mode in `recommend` never fails; the result is
deduplicated and drawn from the allow-list `{normal, relaxed, force}`. -/
theorem resolve_enabled_modes_safe (cfg_modes : Option (List String)) :
    resolve_enabled_modes cfg_modes ≠ []
    ∧ (resolve_enabled_modes cfg_modes).Nodup
    ∧ (∀ m ∈ resolve_enabled_modes cfg_modes, m = "normal" ∨ m = "relaxed" ∨ m = "force")
    ∧ (cfg_modes = none → resolve_enabled_modes cfg_modes = ["normal", "relaxed", "force"]) := by
  cases cfg_modes with
  | none =>
    refine ⟨by simp [resolve_enabled_modes], ?_, ?_, fun _ => rfl⟩
    · simp [resolve_enabled_modes]
    · intro m hm
      simp only [resolve_enabled_modes, List.mem_cons, List.mem_singleton] at hm
      tauto
  | some ms =>
    obtain ⟨hnd, hal⟩ := modeStep_fold_invariant ms [] List.nodup_nil (by simp)
    have hred : resolve_enabled_modes (some ms)
        = if (ms.foldl modeStep []).isEmpty then ["normal", "relaxed", "force"]
          else ms.foldl modeStep [] := rfl
    rw [hred]
    by_cases hcase : (ms.foldl modeStep []).isEmpty = true
    · rw [if_pos hcase]
      refine ⟨by simp, by simp, ?_, by simp⟩
      intro m hm
      simp only [List.mem_cons, List.mem_singleton] at hm
      tauto
    · rw [if_neg hcase]
      rw [Bool.not_eq_true, List.isEmpty_eq_false_iff_exists_mem] at hcase
      obtain ⟨x, hx⟩ := hcase
      exact ⟨fun hnil => by rw [hnil] at hx; exact List.not_mem_nil x hx, hnd, hal, by simp⟩

/-- Witness for C10: a config list with whitespace, case noise and junk
entries resolves to a member of the allow-list. -/
theorem resolve_enabled_modes_safe_witness :
    resolve_enabled_modes (some ["  FORCE ", "bogus"]) ≠ [] :=
  (resolve_enabled_modes_safe (some ["  FORCE ", "bogus"])).1

/-- The `recommend` loop evaluates `_rank_candidates` for every mode while
all results are empty. -/
theorem mode_fallback_all_empty {α : Type} (rank : String → List α) :
    ∀ modes : List String, (∀ x ∈ modes, rank x = []) →
      mode_fallback rank modes = (modes, []) := by
  intro modes
  induction modes with
  | nil => intro _; rfl
  | cons m rest ih =>
    intro h
    unfold mode_fallback
    rw [show rank m = [] from h m (by simp)]
    rw [ih (fun x hx => h x (by simp [hx]))]
    rfl

/-- The `recommend` loop stops at the first mode whose candidate list is
non-empty: the modes ranked are exactly the failing prefix plus that mode. -/
theorem mode_fallback_first_success {α : Type} (rank : String → List α) (m : String)
    (hm : rank m ≠ []) :
    ∀ pre post : List String, (∀ x ∈ pre, rank x = []) →
      mode_fallback rank (pre ++ m :: post) = (pre ++ [m], rank m) := by
  intro pre
  induction pre with
  | nil =>
    intro post _
    show mode_fallback rank (m :: post) = ([m], rank m)
    unfold mode_fallback
    rw [if_neg (by simp [hm])]
  | cons p pre' ih =>
    intro post h
    show mode_fallback rank (p :: (pre' ++ m :: post)) = ((p :: pre') ++ [m], rank m)
    unfold mode_fallback
    rw [show rank p = [] from h p (by simp)]
    rw [ih post (fun x hx => h x (by simp [hx]))]
    rfl

/-- C1: modes are attempted in the configured order and the engine stops at
the first mode yielding at least one candidate — no ranking or scoring
occurs for any later mode once some mode produces a non-empty list; if every
enabled mode yields zero candidates, the run raises the "no candidate"
error. -/
theorem recommend_mode_fallback_order {α : Type} (rank : String → List α)
    (modes pre post : List String) (m : String) :
    ((∀ x ∈ modes, rank x = []) →
      mode_fallback rank modes = (modes, [])
      ∧ recommend_select rank modes =
          Except.error ("No candidate found in enabled modes: "
            ++ String.intercalate "," modes))
    ∧ (modes = pre ++ m :: post → (∀ x ∈ pre, rank x = []) → rank m ≠ [] →
      mode_fallback rank modes = (pre ++ [m], rank m)
      ∧ recommend_select rank modes = Except.ok (m, rank m)) := by
  constructor
  · intro h
    have hfb := mode_fallback_all_empty rank modes h
    refine ⟨hfb, ?_⟩
    unfold recommend_select
    rw [hfb]
    rfl
  · intro hmodes hpre hm
    subst hmodes
    have hfb := mode_fallback_first_success rank m hm pre post hpre
    refine ⟨hfb, ?_⟩
    unfold recommend_select
    rw [hfb]
    show (if (rank m).isEmpty = true then _ else _) = _
    rw [if_neg (by simp [hm]), List.getLastD_concat]

/-- Witness for C1: with candidates only in `relaxed`, the loop ranks
`normal` then `relaxed` and never touches `force`. -/
theorem recommend_mode_fallback_order_witness :
    mode_fallback (fun md => if md = "relaxed" then [1] else ([] : List ℕ))
      ["normal", "relaxed", "force"] = (["normal", "relaxed"], [1])
    ∧ recommend_select (fun md => if md = "relaxed" then [1] else ([] : List ℕ))
      ["normal", "relaxed", "force"] = Except.ok ("relaxed", [1]) := by
  have h := (recommend_mode_fallback_order
      (fun md => if md = "relaxed" then [1] else ([] : List ℕ))
      ["normal", "relaxed", "force"] ["normal"] ["force"] "relaxed").2 rfl
      (by intro x hx; rw [List.mem_singleton] at hx; subst hx; rfl)
      (by simp)
  exact ⟨h.1, h.2⟩

/-! ### Claim C6: compute_score bounds -/

theorem fdiv_some (x y : ℚ) :
    fdiv (some x) (some y)
      = if y = 0 then Except.error () else Except.ok (some (x / y)) := by
  show (if y = 0 then Except.error () else Except.ok (Option.map (fun z => z / y) (some x)))
      = _
  split <;> rfl

theorem fadd_some (x y : ℚ) : fadd (some x) (some y) = some (x + y) := rfl

theorem fmul_some (x y : ℚ) : fmul (some x) (some y) = some (x * y) := rfl

theorem except_bind_ok {ε α β : Type} (a : α) (f : α → Except ε β) :
    (Except.ok a : Except ε α).bind f = f a := rfl

theorem except_bind_error {ε α β : Type} (e : ε) (f : α → Except ε β) :
    (Except.error e : Except ε α).bind f = Except.error e := rfl

theorem weight_sum_pos (w : Weights) : 0 < weight_sum w := by
  unfold weight_sum
  split
  · norm_num
  · rename_i h
    have h1 : 0 ≤ max w.trend 0 := le_max_right _ _
    have h2 : 0 ≤ max w.momentum 0 := le_max_right _ _
    have h3 : 0 ≤ max w.stability 0 := le_max_right _ _
    have h4 : 0 ≤ max w.volume 0 := le_max_right _ _
    have hs : 0 ≤ weight_sum_raw w := by
      unfold weight_sum_raw
      linarith
    exact lt_of_le_of_ne hs (Ne.symm h)

theorem momentum_score_bounds (row : FeatureRow) :
    0 ≤ momentum_score row ∧ momentum_score row ≤ 100 := by
  unfold momentum_score
  have h1 := clip01R_nonneg (row.mom5.getD 0) (-0.08) 0.12
  have h2 := clip01R_le_one (row.mom5.getD 0) (-0.08) 0.12
  have h3 := clip01R_nonneg (row.mom20.getD 0) (-0.15) 0.25
  have h4 := clip01R_le_one (row.mom20.getD 0) (-0.15) 0.25
  constructor <;> linarith

theorem stability_score_bounds (row : FeatureRow) :
    0 ≤ stability_score row ∧ stability_score row ≤ 100 := by
  unfold stability_score
  have h1 := clip01R_nonneg (row.vol20_std.getD 0.03) 0.01 0.08
  have h2 := clip01R_le_one (row.vol20_std.getD 0.03) 0.01 0.08
  constructor <;> linarith

theorem volume_score_bounds (row : FeatureRow) :
    0 ≤ volume_score row ∧ volume_score row ≤ 100 := by
  unfold volume_score
  have h1 := clip01R_nonneg (row.vol_ratio_5_20.getD 1) 0.8 2
  have h2 := clip01R_le_one (row.vol_ratio_5_20.getD 1) 0.8 2
  have h3 := clip01R_nonneg (row.volume_zscore20.getD 0) (-0.5) 2.5
  have h4 := clip01R_le_one (row.volume_zscore20.getD 0) (-0.5) 2.5
  constructor <;> linarith

theorem weighted_total_bounds (w : Weights) (t m s v : ℚ)
    (ht0 : 0 ≤ t) (ht1 : t ≤ 100) (hm0 : 0 ≤ m) (hm1 : m ≤ 100)
    (hs0 : 0 ≤ s) (hs1 : s ≤ 100) (hv0 : 0 ≤ v) (hv1 : v ≤ 100) :
    0 ≤ (t * max w.trend 0 + m * max w.momentum 0 + s * max w.stability 0
        + v * max w.volume 0) / weight_sum w
    ∧ (t * max w.trend 0 + m * max w.momentum 0 + s * max w.stability 0
        + v * max w.volume 0) / weight_sum w ≤ 100 := by
  have hwt : 0 ≤ max w.trend 0 := le_max_right _ _
  have hwm : 0 ≤ max w.momentum 0 := le_max_right _ _
  have hws : 0 ≤ max w.stability 0 := le_max_right _ _
  have hwv : 0 ≤ max w.volume 0 := le_max_right _ _
  have hpos := weight_sum_pos w
  have hnum0 : 0 ≤ t * max w.trend 0 + m * max w.momentum 0 + s * max w.stability 0
      + v * max w.volume 0 := by
    have := mul_nonneg ht0 hwt
    have := mul_nonneg hm0 hwm
    have := mul_nonneg hs0 hws
    have := mul_nonneg hv0 hwv
    linarith
  refine ⟨div_nonneg hnum0 (le_of_lt hpos), ?_⟩
  rw [div_le_iff₀ hpos]
  by_cases hz : weight_sum_raw w = 0
  · have ht' : max w.trend 0 = 0 := by
      unfold weight_sum_raw at hz
      linarith
    have hm' : max w.momentum 0 = 0 := by
      unfold weight_sum_raw at hz
      linarith
    have hs' : max w.stability 0 = 0 := by
      unfold weight_sum_raw at hz
      linarith
    have hv' : max w.volume 0 = 0 := by
      unfold weight_sum_raw at hz
      linarith
    rw [ht', hm', hs', hv']
    have hws1 : weight_sum w = 1 := by
      unfold weight_sum
      rw [if_pos hz]
    rw [hws1]
    linarith
  · have hws1 : weight_sum w = weight_sum_raw w := by
      unfold weight_sum
      rw [if_neg hz]
    rw [hws1]
    have e1 : t * max w.trend 0 ≤ 100 * max w.trend 0 :=
      mul_le_mul_of_nonneg_right ht1 hwt
    have e2 : m * max w.momentum 0 ≤ 100 * max w.momentum 0 :=
      mul_le_mul_of_nonneg_right hm1 hwm
    have e3 : s * max w.stability 0 ≤ 100 * max w.stability 0 :=
      mul_le_mul_of_nonneg_right hs1 hws
    have e4 : v * max w.volume 0 ≤ 100 * max w.volume 0 :=
      mul_le_mul_of_nonneg_right hv1 hwv
    unfold weight_sum_raw
    linarith

/-- A feature row whose `ma20` field is defined but exactly zero. -/
def rowZeroMa20 : FeatureRow :=
  ⟨some 5, some 0, some 1, some 0, some 0, some 50, some 0.02, some 0, some 1, some 0⟩

/-- C6 counterexample: `compute_score` does not return a score for every
feature row — on a row whose `ma20` is exactly `0.0` the Python float
division `close / ma20` raises `ZeroDivisionError` (modelled as
`Except.error`), so the claim's universal quantification over rows fails. -/
theorem compute_score_zero_ma20_raises :
    compute_score rowZeroMa20 ⟨0.35, 0.35, 0.15, 0.15⟩ = Except.error () := by
  have hdiv : fdiv rowZeroMa20.close (effMa20 rowZeroMa20) = Except.error () := by
    show fdiv (some 5) (some 0) = Except.error ()
    rw [fdiv_some, if_pos rfl]
  unfold compute_score
  rw [hdiv, except_bind_error]

/-- C6 amended: for every configuration (any weight values, including zero,
negative, or all non-positive weights) and every feature row whose `close`
is defined and whose effective `ma20` and `ma60` (after NaN substitution)
are nonzero, `compute_score` returns a `score_total` in `[0, 100]`, every
sub-score of the breakdown lies in `[0, 100]`, and the weighted-average
denominator is strictly positive. -/
theorem compute_score_bounds (row : FeatureRow) (w : Weights) (c a b : ℚ)
    (hc : row.close = some c) (ha : effMa20 row = some a) (ha0 : a ≠ 0)
    (hb : effMa60 row = some b) (hb0 : b ≠ 0) :
    ∃ t tr : ℚ,
      compute_score row w = Except.ok ⟨some t, some tr, momentum_score row,
        stability_score row, volume_score row⟩
      ∧ 0 ≤ t ∧ t ≤ 100
      ∧ 0 ≤ tr ∧ tr ≤ 100
      ∧ 0 ≤ momentum_score row ∧ momentum_score row ≤ 100
      ∧ 0 ≤ stability_score row ∧ stability_score row ≤ 100
      ∧ 0 ≤ volume_score row ∧ volume_score row ≤ 100
      ∧ 0 < weight_sum w := by
  have hdiv1 : fdiv row.close (effMa20 row) = Except.ok (some (c / a)) := by
    rw [hc, ha, fdiv_some, if_neg ha0]
  have hdiv2 : fdiv (effMa20 row) (effMa60 row) = Except.ok (some (a / b)) := by
    rw [ha, hb, fdiv_some, if_neg hb0]
  have htrend : trend_score row (some (c / a)) (some (a / b))
      = some ((clip01R (c / a - 1) (-0.03) 0.08 * 0.4
          + clip01R (a / b - 1) (-0.03) 0.08 * 0.4
          + clip01R (row.ma20_slope5.getD 0) (-0.02) 0.04 * 0.2) * 100) := by
    unfold trend_score
    rw [show fsub (some (c / a)) (some 1) = some (c / a - 1) from rfl,
        show fsub (some (a / b)) (some 1) = some (a / b - 1) from rfl,
        clip01_some, clip01_some]
    rfl
  have hx1 := clip01R_nonneg (c / a - 1) (-0.03) 0.08
  have hx2 := clip01R_le_one (c / a - 1) (-0.03) 0.08
  have hy1 := clip01R_nonneg (a / b - 1) (-0.03) 0.08
  have hy2 := clip01R_le_one (a / b - 1) (-0.03) 0.08
  have hz1 := clip01R_nonneg (row.ma20_slope5.getD 0) (-0.02) 0.04
  have hz2 := clip01R_le_one (row.ma20_slope5.getD 0) (-0.02) 0.04
  have htr0 : 0 ≤ (clip01R (c / a - 1) (-0.03) 0.08 * 0.4
      + clip01R (a / b - 1) (-0.03) 0.08 * 0.4
      + clip01R (row.ma20_slope5.getD 0) (-0.02) 0.04 * 0.2) * 100 := by linarith
  have htr1 : (clip01R (c / a - 1) (-0.03) 0.08 * 0.4
      + clip01R (a / b - 1) (-0.03) 0.08 * 0.4
      + clip01R (row.ma20_slope5.getD 0) (-0.02) 0.04 * 0.2) * 100 ≤ 100 := by linarith
  obtain ⟨hm0, hm1⟩ := momentum_score_bounds row
  obtain ⟨hs0, hs1⟩ := stability_score_bounds row
  obtain ⟨hv0, hv1⟩ := volume_score_bounds row
  obtain ⟨htot0, htot1⟩ := weighted_total_bounds w
    ((clip01R (c / a - 1) (-0.03) 0.08 * 0.4
      + clip01R (a / b - 1) (-0.03) 0.08 * 0.4
      + clip01R (row.ma20_slope5.getD 0) (-0.02) 0.04 * 0.2) * 100)
    (momentum_score row) (stability_score row) (volume_score row)
    htr0 htr1 hm0 hm1 hs0 hs1 hv0 hv1
  have hwpos := weight_sum_pos w
  have hwne : weight_sum w ≠ 0 := ne_of_gt hwpos
  refine ⟨((clip01R (c / a - 1) (-0.03) 0.08 * 0.4
      + clip01R (a / b - 1) (-0.03) 0.08 * 0.4
      + clip01R (row.ma20_slope5.getD 0) (-0.02) 0.04 * 0.2) * 100 * max w.trend 0
      + momentum_score row * max w.momentum 0
      + stability_score row * max w.stability 0
      + volume_score row * max w.volume 0) / weight_sum w,
    (clip01R (c / a - 1) (-0.03) 0.08 * 0.4
      + clip01R (a / b - 1) (-0.03) 0.08 * 0.4
      + clip01R (row.ma20_slope5.getD 0) (-0.02) 0.04 * 0.2) * 100,
    ?_, htot0, htot1, htr0, htr1, hm0, hm1, hs0, hs1, hv0, hv1, hwpos⟩
  unfold compute_score
  simp only [hdiv1, hdiv2, except_bind_ok, htrend, fmul_some, fadd_some, fdiv_some,
    if_neg hwne]

/-- Witness for the amended C6 on a healthy row with weights summing to 1. -/
theorem compute_score_bounds_witness :
    (compute_score ⟨some 11, some 10, some 9.5, some 0.03, some 0.05, some 60, some 0.02,
        some 0.01, some 1, some 0⟩ ⟨0.4, 0.4, 0.2, 0⟩).isOk = true := by
  obtain ⟨t, tr, h, -⟩ := compute_score_bounds
    ⟨some 11, some 10, some 9.5, some 0.03, some 0.05, some 60, some 0.02, some 0.01,
      some 1, some 0⟩
    ⟨0.4, 0.4, 0.2, 0⟩ 11 10 9.5 rfl rfl (by norm_num) rfl (by norm_num)
  rw [h]
  rfl

end Facai
